import Mathlib

/-
Verification of the static blog's build-time route generation.

Embedded source files:
* `gatsby-node.js` (createPages / onCreateNode): route generation, prev/next
  navigation, translation grouping by directory basename.
* `src/content/config.ts`: the zod schema validating the `lang` front-matter
  field of the Astro content collection.
* `astro.config.mjs`: the configured i18n locale set.
* `rss.xml.ts` (the Astro feed route): draft/locale filtering, date-descending
  sort, link construction.

Modelling conventions: file paths are lists of path segments, so Node's
`path.dirname` is `dropLast` and `path.basename` is the last segment; dates
are integer timestamps; the GraphQL layer's `sort: date DESC, limit: 1000`
is modelled as a stable insertion sort by date descending followed by
`take 1000` (the spec requires the framework sort to be stable); JavaScript
object maps are modelled as functions into `Option`.
-/

/-- A markdown node as seen by `createPages`: the queried fields
(`slug`, `langKey`, `directoryName` via `onCreateNode`) together with the
underlying file path and front-matter data. -/
structure PostNode where
  slug : String
  langKey : String
  date : Int
  fileAbsolutePath : List String
  title : String
deriving DecidableEq

/-- Node `path.dirname` on a segment-list path: drop the final segment. -/
def dirname (p : List String) : List String := p.dropLast

/-- Node `path.basename` on a segment-list path: the final segment. -/
def basename (p : List String) : String := p.getLastD ""

/-- From `onCreateNode`: the `directoryName` field is
`path.basename(path.dirname(node.fileAbsolutePath))`. -/
def PostNode.directoryName (node : PostNode) : String :=
  basename (dirname node.fileAbsolutePath)

/-- Modelled from the spec: the key set of `supportedLanguages` from the
`./i18n` module, which is required by `gatsby-node.js` but absent from the
sources; the spec fixes the locale set to the default locale `en` plus the
translation `zh-hans` (matching the Astro i18n configuration). -/
def supportedLanguages : List String := ["en", "zh-hans"]

/-- Date-descending comparison used by the content query:
`a` may come before `b` iff `a.date ≥ b.date`. -/
def postLe (a b : PostNode) : Prop := b.date ≤ a.date

instance : DecidableRel postLe := fun a b => inferInstanceAs (Decidable (b.date ≤ a.date))

instance : IsTotal PostNode postLe := ⟨fun a b => le_total b.date a.date⟩

instance : IsTrans PostNode postLe := ⟨fun _ _ _ h h' => le_trans h' h⟩

/-- The GraphQL query `allMarkdownRemark(sort: {frontmatter: {date: DESC}}, limit: 1000)`:
stable sort by date descending, then keep at most the first 1000 posts. -/
def queryPosts (snapshot : List PostNode) : List PostNode :=
  (List.insertionSort postLe snapshot).take 1000

/-- From `createPages`: the set of all queried slugs
(`posts.reduce((result, post) => result.add(slug), new Set())`).
This value is computed by the source but never read afterwards. -/
def allSlugs (posts : List PostNode) : Finset String :=
  posts.foldl (fun result post => insert post.slug result) ∅

/-- One step of the `translationsByDirectory` reduce: for a post with truthy
`directoryName` and `langKey` and `langKey !== "en"`, push its `langKey`
onto the entry at its `directoryName` (creating the entry if absent). -/
def pushTranslation (result : String → Option (List String)) (post : PostNode) :
    String → Option (List String) :=
  if post.directoryName != "" && post.langKey != "" && post.langKey != "en" then
    fun k =>
      if k = post.directoryName then
        some ((result post.directoryName).getD [] ++ [post.langKey])
      else result k
  else result

/-- From `createPages`: `posts.reduce(..., {})` building the map from
`directoryName` to the pushed list of non-default `langKey`s. -/
def translationsByDirectory (posts : List PostNode) : String → Option (List String) :=
  posts.foldl pushTranslation (fun _ => none)

/-- From `createPages`: `posts.filter(({node}) => node.fields.langKey === "en")`
applied to the query result. -/
def defaultLangPosts (snapshot : List PostNode) : List PostNode :=
  (queryPosts snapshot).filter (fun p => p.langKey == "en")

/-- From `createPages`: `posts.filter(({node}) => node.fields.langKey !== "en")`
applied to the query result. -/
def otherLangPosts (snapshot : List PostNode) : List PostNode :=
  (queryPosts snapshot).filter (fun p => p.langKey != "en")

/-- The `context` object passed to `createPage`, one constructor per call
site: locale index pages, default-language detail pages, and
other-language detail pages. -/
inductive PageContext where
  | indexCtx (langKey : String)
  | postCtx (slug langKey : String) (translations : List String)
      (previous next : Option PostNode)
  | otherPostCtx (langKey slug : String)
deriving DecidableEq

/-- One `createPage` call: its `path`, `component` and `context`. -/
structure Page where
  path : String
  component : String
  context : PageContext
deriving DecidableEq

/-- The `blog-post.js` template component. -/
def blogPost : String := "./src/templates/blog-post.js"

/-- The `blog-index.js` template component. -/
def blogIndex : String := "./src/templates/blog-index.js"

/-- From `createPages`: the locale index pages created before the content
query runs — path `/` for `en`, `/<lang>/` otherwise. -/
def indexPages : List Page :=
  supportedLanguages.map fun langKey =>
    { path := if langKey == "en" then "/" else "/" ++ langKey ++ "/",
      component := blogIndex,
      context := PageContext.indexCtx langKey }

/-- The page created for the default-language post `post` sitting at
position `index` of `dlp` (the filtered default-language list), with
`posts` the full query result: `previous` is the entry at `index + 1`
(or `null` at the last index), `next` the entry at `index - 1` (or `null`
at index 0), and `translations` the `translationsByDirectory` entry at the
post's `directoryName` (defaulting to `[]`). -/
def createPostPage (posts dlp : List PostNode) (index : Nat) (post : PostNode) : Page :=
  { path := post.slug,
    component := blogPost,
    context := PageContext.postCtx post.slug post.langKey
      ((translationsByDirectory posts post.directoryName).getD [])
      (if index = dlp.length - 1 then none else dlp[index + 1]?)
      (if index = 0 then none else dlp[index - 1]?) }

/-- From `createPages`: `defaultLangPosts.forEach((post, index) => createPage(...))`. -/
def detailPagesEn (posts : List PostNode) : List Page :=
  let dlp := posts.filter (fun p => p.langKey == "en")
  dlp.enum.map fun ip => createPostPage posts dlp ip.1 ip.2

/-- From `createPages`: `otherLangPosts.forEach(post => createPage(...))` —
context carries only `langKey` and `slug`. -/
def detailPagesOther (posts : List PostNode) : List Page :=
  (posts.filter (fun p => p.langKey != "en")).map fun post =>
    { path := post.slug,
      component := blogPost,
      context := PageContext.otherPostCtx post.langKey post.slug }

/-- The whole `createPages` hook as a function from the content snapshot and
the outcome of the GraphQL call to the list of pages created (in call
order) together with the error thrown, if any. The locale index pages are
created before the query; `if (result.errors) throw result.errors` aborts
after them; otherwise the detail pages follow. -/
def createPages (snapshot : List PostNode) (queryErrors : Option String) :
    List Page × Option String :=
  match queryErrors with
  | some e => (indexPages, some e)
  | none =>
    let posts := queryPosts snapshot
    (indexPages ++ detailPagesEn posts ++ detailPagesOther posts, none)

/-- The `next` entry of a page's context (`none` on non-navigation contexts). -/
def Page.nextPost : Page → Option PostNode
  | { context := PageContext.postCtx _ _ _ _ n, .. } => n
  | _ => none

/-- The `previous` entry of a page's context (`none` on non-navigation contexts). -/
def Page.previousPost : Page → Option PostNode
  | { context := PageContext.postCtx _ _ _ p _, .. } => p
  | _ => none

/-- The `translations` entry of a page's context (`[]` on other contexts). -/
def Page.translations : Page → List String
  | { context := PageContext.postCtx _ _ t _ _, .. } => t
  | _ => []

/-- Whether a page is a post detail page rather than a locale index page. -/
def Page.isDetailPage : Page → Bool
  | { context := PageContext.indexCtx _, .. } => false
  | _ => true

/-- From `astro.config.mjs`: `i18n.locales`. -/
def i18nLocales : List String := ["en", "zh-hans"]

/-- From `astro.config.mjs`: `i18n.defaultLocale`. -/
def defaultLocale : String := "en"

/-- From `src/content/config.ts`: validation of the `lang` front-matter
field, `z.enum(['en', 'zh-hans']).optional().default('en')` — an absent
field yields the default `en`, a present value must be one of the two
enum members, and anything else is a validation error (which fails the
build). -/
def blogCollectionLang : Option String → Except String String
  | none => Except.ok "en"
  | some t => if t ∈ ["en", "zh-hans"] then Except.ok t else Except.error t

/-- An entry of the Astro `blog` content collection as consumed by the feed
route: the derived slug plus the validated front-matter data. -/
structure BlogEntry where
  slug : String
  title : String
  description : String
  date : Int
  draft : Bool
  lang : String
deriving DecidableEq

/-- One item of the produced syndication document. -/
structure RssItem where
  title : String
  pubDate : Int
  description : String
  link : String
deriving DecidableEq

/-- Date-descending comparison used by the feed route's
`(a, b) => new Date(b.data.date).getTime() - new Date(a.data.date).getTime()`
comparator: `a` may come before `b` iff `a.date ≥ b.date`. -/
def entryLe (a b : BlogEntry) : Prop := b.date ≤ a.date

instance : DecidableRel entryLe := fun a b => inferInstanceAs (Decidable (b.date ≤ a.date))

instance : IsTotal BlogEntry entryLe := ⟨fun a b => le_total b.date a.date⟩

instance : IsTrans BlogEntry entryLe := ⟨fun _ _ _ h h' => le_trans h' h⟩

/-- From the Astro feed route (`rss.xml.ts` `GET`): filter the collection to
`!data.draft && data.lang === 'en'`, sort by date descending (JavaScript's
`Array.prototype.sort` is stable), and emit one item per post whose link
resolves to the site origin followed by `/<slug>/`. -/
def rssEntryItem (site : String) (post : BlogEntry) : RssItem :=
  { title := post.title,
    pubDate := post.date,
    description := post.description,
    link := site ++ "/" ++ post.slug ++ "/" }

/-- From the Astro feed route: the emitted item list. -/
def rssItems (site : String) (blog : List BlogEntry) : List RssItem :=
  let filtered := blog.filter fun e => !e.draft && e.lang == "en"
  let sortedPosts := List.insertionSort entryLe filtered
  sortedPosts.map (rssEntryItem site)

/-- The Boolean guard of the `translationsByDirectory` push together with a
match on the group key: `q` contributes to the entry at `d`. -/
def contributesTo (d : String) (q : PostNode) : Bool :=
  (q.directoryName != "" && q.langKey != "" && q.langKey != "en") && q.directoryName == d

lemma pushTranslation_getD_self (acc : String → Option (List String)) (p : PostNode) (d : String) :
    (pushTranslation acc p d).getD [] =
      (acc d).getD [] ++ (if contributesTo d p then [p.langKey] else []) := by
  unfold pushTranslation contributesTo
  by_cases hg : (p.directoryName != "" && p.langKey != "" && p.langKey != "en") = true
  · rw [if_pos hg]
    by_cases hd : d = p.directoryName
    · subst hd
      simp [hg]
    · have : (p.directoryName == d) = false := by
        simp [Ne.symm hd]
      simp [hg, this, if_neg hd]
  · rw [if_neg hg]
    simp only [Bool.not_eq_true] at hg
    simp [hg]

lemma foldl_pushTranslation_getD (posts : List PostNode)
    (acc : String → Option (List String)) (d : String) :
    (posts.foldl pushTranslation acc d).getD [] =
      (acc d).getD [] ++ (posts.filter (contributesTo d)).map (·.langKey) := by
  induction posts generalizing acc with
  | nil => simp
  | cons p ps ih =>
    rw [List.foldl_cons, ih, pushTranslation_getD_self, List.filter_cons]
    by_cases hc : contributesTo d p
    · simp [hc, List.append_assoc]
    · simp [hc]

/-- Looking up a directory key in the translations map (with the `|| []`
default of `createPages`) yields the `langKey`s of exactly the non-default
posts contributing to that key, in encounter order. -/
lemma translationsByDirectory_getD (posts : List PostNode) (d : String) :
    (translationsByDirectory posts d).getD [] =
      (posts.filter (contributesTo d)).map (·.langKey) := by
  rw [translationsByDirectory, foldl_pushTranslation_getD]
  rfl

/-- Indexing into the default-language detail pages: the page at index `i`
is `createPostPage` applied to the default-language post at index `i`. -/
lemma detailPagesEn_getElem? (posts : List PostNode) (i : Nat) :
    (detailPagesEn posts)[i]? =
      Option.map (createPostPage posts (posts.filter fun p => p.langKey == "en") i)
        (posts.filter fun p => p.langKey == "en")[i]? := by
  simp only [detailPagesEn, List.getElem?_map, List.getElem?_enum, Option.map_map]
  rfl

lemma detailPagesEn_length (posts : List PostNode) :
    (detailPagesEn posts).length = (posts.filter fun p => p.langKey == "en").length := by
  simp [detailPagesEn, List.enum_length]

lemma createPostPage_nextPost (posts dlp : List PostNode) (i : Nat) (post : PostNode) :
    (createPostPage posts dlp i post).nextPost = if i = 0 then none else dlp[i - 1]? := rfl

lemma createPostPage_previousPost (posts dlp : List PostNode) (i : Nat) (post : PostNode) :
    (createPostPage posts dlp i post).previousPost =
      if i = dlp.length - 1 then none else dlp[i + 1]? := rfl

lemma createPostPage_translations (posts dlp : List PostNode) (i : Nat) (post : PostNode) :
    (createPostPage posts dlp i post).translations =
      (translationsByDirectory posts post.directoryName).getD [] := rfl

lemma createPostPage_path (posts dlp : List PostNode) (i : Nat) (post : PostNode) :
    (createPostPage posts dlp i post).path = post.slug := rfl

/-- The query output is sorted by date descending. -/
lemma sorted_queryPosts (snapshot : List PostNode) :
    List.Sorted postLe (queryPosts snapshot) :=
  List.Pairwise.sublist (List.take_sublist _ _) (List.sorted_insertionSort postLe snapshot)

lemma length_queryPosts_le (snapshot : List PostNode) :
    (queryPosts snapshot).length ≤ 1000 := by
  rw [queryPosts, List.length_take]
  exact min_le_left _ _

/-- Re-querying the query output changes nothing: the sort leaves the
already-sorted list fixed and the truncation is below the limit. -/
lemma queryPosts_idem (snapshot : List PostNode) :
    queryPosts (queryPosts snapshot) = queryPosts snapshot := by
  rw [queryPosts, (sorted_queryPosts snapshot).insertionSort_eq,
    List.take_of_length_le (length_queryPosts_le snapshot)]

lemma defaultLangPosts_eq (snapshot : List PostNode) :
    defaultLangPosts snapshot = (queryPosts snapshot).filter (fun p => p.langKey == "en") := rfl

/-- C1: for the default-language posts in date-descending order, the detail
page at index `i` carries `next` = the post at index `i - 1` (`none` when
`i = 0`) and `previous` = the post at index `i + 1` (`none` at the last
index); hence the newest post has `next = none`, the oldest has
`previous = none`, and a single-post input yields both `none`. -/
theorem C1_navLinks (snapshot : List PostNode) (i : Nat) (pg : Page)
    (hpg : (detailPagesEn (queryPosts snapshot))[i]? = some pg) :
    pg.nextPost = (if i = 0 then none else (defaultLangPosts snapshot)[i - 1]?) ∧
    pg.previousPost =
      (if i = (defaultLangPosts snapshot).length - 1 then none
       else (defaultLangPosts snapshot)[i + 1]?) ∧
    ((defaultLangPosts snapshot).length = 1 → pg.nextPost = none ∧ pg.previousPost = none) ∧
    (detailPagesEn (queryPosts snapshot)).length = (defaultLangPosts snapshot).length ∧
    (createPages snapshot none).1 =
      indexPages ++ detailPagesEn (queryPosts snapshot) ++ detailPagesOther (queryPosts snapshot) ∧
    (defaultLangPosts snapshot).Pairwise postLe := by
  rw [detailPagesEn_getElem?] at hpg
  cases hP : ((queryPosts snapshot).filter fun p => p.langKey == "en")[i]? with
  | none => rw [hP] at hpg; simp at hpg
  | some P =>
    rw [hP] at hpg
    simp only [Option.map_some', Option.some.injEq] at hpg
    subst hpg
    have hi : i < ((queryPosts snapshot).filter fun p => p.langKey == "en").length :=
      (List.getElem?_eq_some.mp hP).1
    rw [← defaultLangPosts_eq] at hi
    refine ⟨?_, ?_, ?_, ?_, rfl, ?_⟩
    · rw [createPostPage_nextPost, defaultLangPosts_eq]
    · rw [createPostPage_previousPost, defaultLangPosts_eq]
    · intro hlen
      have hz : i = 0 := by omega
      subst hz
      constructor
      · rw [createPostPage_nextPost]
        simp
      · rw [createPostPage_previousPost, ← defaultLangPosts_eq, hlen]
        simp
    · rw [detailPagesEn_length, defaultLangPosts_eq]
    · rw [defaultLangPosts_eq]
      exact List.Pairwise.filter _ (sorted_queryPosts snapshot)

/-- Witness for C1 at a single-post snapshot. -/
theorem C1_navLinks_witness :
    (detailPagesEn (queryPosts [⟨"hello", "en", 3, ["blog", "hello", "index.md"], "Hello"⟩]))[0]? =
      some (Page.mk "hello" blogPost (PageContext.postCtx "hello" "en" [] none none)) ∧
    Page.nextPost (Page.mk "hello" blogPost (PageContext.postCtx "hello" "en" [] none none)) = none ∧
    Page.previousPost (Page.mk "hello" blogPost (PageContext.postCtx "hello" "en" [] none none)) = none := by
  have h := C1_navLinks [⟨"hello", "en", 3, ["blog", "hello", "index.md"], "Hello"⟩] 0
    (Page.mk "hello" blogPost (PageContext.postCtx "hello" "en" [] none none)) (by decide)
  exact ⟨by decide, (h.2.2.1 (by decide)).1, (h.2.2.1 (by decide)).2⟩

/-- C2: navigation links are symmetric. If the default-language detail page
at index `i` is built for post `P`, then whenever its `next` is some post
`Q`, the page built for `Q` (at index `i - 1`) has `previous = P`, and
whenever its `previous` is some post `R`, the page built for `R` (at index
`i + 1`) has `next = P`. -/
theorem C2_navSymmetry (snapshot : List PostNode) (i : Nat) (pg : Page)
    (hpg : (detailPagesEn (queryPosts snapshot))[i]? = some pg) :
    ∃ P, (defaultLangPosts snapshot)[i]? = some P ∧ pg.path = P.slug ∧
      (∀ q, pg.nextPost = some q →
        ∃ qpg, (detailPagesEn (queryPosts snapshot))[i - 1]? = some qpg ∧
          qpg.path = q.slug ∧ qpg.previousPost = some P) ∧
      (∀ r, pg.previousPost = some r →
        ∃ rpg, (detailPagesEn (queryPosts snapshot))[i + 1]? = some rpg ∧
          rpg.path = r.slug ∧ rpg.nextPost = some P) := by
  rw [detailPagesEn_getElem?] at hpg
  cases hP : ((queryPosts snapshot).filter fun p => p.langKey == "en")[i]? with
  | none => rw [hP] at hpg; simp at hpg
  | some P =>
    rw [hP] at hpg
    simp only [Option.map_some', Option.some.injEq] at hpg
    subst hpg
    have hi : i < ((queryPosts snapshot).filter fun p => p.langKey == "en").length :=
      (List.getElem?_eq_some.mp hP).1
    refine ⟨P, by rw [defaultLangPosts_eq]; exact hP, rfl, ?_, ?_⟩
    · intro q hq
      rw [createPostPage_nextPost] at hq
      by_cases h0 : i = 0
      · rw [if_pos h0] at hq; exact absurd hq (by simp)
      · rw [if_neg h0] at hq
        have hq' : i - 1 < ((queryPosts snapshot).filter fun p => p.langKey == "en").length :=
          (List.getElem?_eq_some.mp hq).1
        rw [detailPagesEn_getElem?, hq]
        refine ⟨_, rfl, rfl, ?_⟩
        rw [createPostPage_previousPost]
        have hne : ¬ (i - 1 = ((queryPosts snapshot).filter fun p => p.langKey == "en").length - 1) := by
          omega
        rw [if_neg hne]
        have : i - 1 + 1 = i := by omega
        rw [this, hP]
    · intro r hr
      rw [createPostPage_previousPost] at hr
      by_cases hl : i = ((queryPosts snapshot).filter fun p => p.langKey == "en").length - 1
      · rw [if_pos hl] at hr; exact absurd hr (by simp)
      · rw [if_neg hl] at hr
        rw [detailPagesEn_getElem?, hr]
        refine ⟨_, rfl, rfl, ?_⟩
        rw [createPostPage_nextPost]
        rw [if_neg (by omega : ¬ (i + 1 = 0))]
        simpa using hP

/-- Witness for C2 at a two-post snapshot: the page of the older post has
`next` pointing at the newer post, whose page points back via `previous`. -/
theorem C2_navSymmetry_witness :
    (detailPagesEn (queryPosts
        [⟨"new", "en", 5, ["blog", "new", "index.md"], "New"⟩,
         ⟨"old", "en", 1, ["blog", "old", "index.md"], "Old"⟩]))[1]? =
      some (Page.mk "old" blogPost (PageContext.postCtx "old" "en" []
        none (some ⟨"new", "en", 5, ["blog", "new", "index.md"], "New"⟩))) ∧
    Option.map Page.previousPost
      (detailPagesEn (queryPosts
        [⟨"new", "en", 5, ["blog", "new", "index.md"], "New"⟩,
         ⟨"old", "en", 1, ["blog", "old", "index.md"], "Old"⟩]))[0]? =
      some (some ⟨"old", "en", 1, ["blog", "old", "index.md"], "Old"⟩) := by
  refine ⟨by decide, ?_⟩
  have h := C2_navSymmetry
    [⟨"new", "en", 5, ["blog", "new", "index.md"], "New"⟩,
     ⟨"old", "en", 1, ["blog", "old", "index.md"], "Old"⟩] 1
    (Page.mk "old" blogPost (PageContext.postCtx "old" "en" []
      none (some ⟨"new", "en", 5, ["blog", "new", "index.md"], "New"⟩))) (by decide)
  obtain ⟨P, hP, -, hnext, -⟩ := h
  obtain ⟨qpg, hq1, -, hq3⟩ := hnext ⟨"new", "en", 5, ["blog", "new", "index.md"], "New"⟩ (by decide)
  have hPold : P = ⟨"old", "en", 1, ["blog", "old", "index.md"], "Old"⟩ := by
    have h2 : (defaultLangPosts
        [⟨"new", "en", 5, ["blog", "new", "index.md"], "New"⟩,
         ⟨"old", "en", 1, ["blog", "old", "index.md"], "Old"⟩])[1]? =
        some ⟨"old", "en", 1, ["blog", "old", "index.md"], "Old"⟩ := by decide
    rw [hP] at h2
    exact Option.some_inj.mp h2
  simp only [Nat.sub_self] at hq1
  rw [hq1, Option.map_some', hq3, hPold]

/-- C3 (amended): the translations list of a default-language post's page
collects one `langKey` entry per queried post that shares its
`directoryName` group key (with truthy `directoryName` and a non-default,
truthy `langKey`) — so it contains exactly the languageTags of the
non-default group-mates as a multiset; it is duplicate-free whenever no two
non-default group-mates share a languageTag, and it is empty when the group
has no non-default variant. -/
theorem C3_translations (snapshot : List PostNode) (i : Nat) (pg : Page) (P : PostNode)
    (hpg : (detailPagesEn (queryPosts snapshot))[i]? = some pg)
    (hP : (defaultLangPosts snapshot)[i]? = some P) :
    pg.translations =
      ((queryPosts snapshot).filter (contributesTo P.directoryName)).map (·.langKey) ∧
    (∀ t, t ∈ pg.translations ↔
      ∃ q ∈ queryPosts snapshot, q.directoryName ≠ "" ∧ q.langKey ≠ "" ∧ q.langKey ≠ "en" ∧
        q.directoryName = P.directoryName ∧ q.langKey = t) ∧
    (((queryPosts snapshot).filter (contributesTo P.directoryName)).Pairwise
        (fun a b => a.langKey ≠ b.langKey) → pg.translations.Nodup) ∧
    ((queryPosts snapshot).filter (contributesTo P.directoryName) = [] →
      pg.translations = []) := by
  rw [detailPagesEn_getElem?] at hpg
  rw [defaultLangPosts_eq] at hP
  rw [hP] at hpg
  simp only [Option.map_some', Option.some.injEq] at hpg
  subst hpg
  have hchar : (createPostPage (queryPosts snapshot)
      ((queryPosts snapshot).filter fun p => p.langKey == "en") i P).translations =
      ((queryPosts snapshot).filter (contributesTo P.directoryName)).map (·.langKey) := by
    rw [createPostPage_translations, translationsByDirectory_getD]
  refine ⟨hchar, ?_, ?_, ?_⟩
  · intro t
    rw [hchar]
    simp only [List.mem_map, List.mem_filter, contributesTo, Bool.and_eq_true, bne_iff_ne,
      ne_eq, beq_iff_eq]
    constructor
    · rintro ⟨q, ⟨hmem, hcond⟩, ht⟩
      refine ⟨q, hmem, ?_, ?_, ?_, ?_, ht⟩ <;> tauto
    · rintro ⟨q, hmem, hd, hl, hle, hdir, ht⟩
      refine ⟨q, ⟨hmem, ?_⟩, ht⟩
      tauto
  · intro hpw
    rw [hchar]
    exact List.Pairwise.map _ (fun a b h => h) hpw
  · intro hempty
    rw [hchar, hempty]
    rfl

/-- Witness for C3 at a snapshot with one default-language post and one
`zh-hans` variant in the same directory. -/
theorem C3_translations_witness :
    (detailPagesEn (queryPosts
        [⟨"hello", "en", 3, ["blog", "hello", "index.md"], "Hello"⟩,
         ⟨"zh-hans/hello", "zh-hans", 2, ["blog", "hello", "index.zh-hans.md"], "你好"⟩]))[0]? =
      some (Page.mk "hello" blogPost (PageContext.postCtx "hello" "en" ["zh-hans"] none none)) ∧
    Page.translations
      (Page.mk "hello" blogPost (PageContext.postCtx "hello" "en" ["zh-hans"] none none)) =
      ["zh-hans"] := by
  refine ⟨by decide, ?_⟩
  have h := C3_translations
    [⟨"hello", "en", 3, ["blog", "hello", "index.md"], "Hello"⟩,
     ⟨"zh-hans/hello", "zh-hans", 2, ["blog", "hello", "index.zh-hans.md"], "你好"⟩] 0
    (Page.mk "hello" blogPost (PageContext.postCtx "hello" "en" ["zh-hans"] none none))
    ⟨"hello", "en", 3, ["blog", "hello", "index.md"], "Hello"⟩ (by decide) (by decide)
  rw [h.1]
  decide

/-- Counterexample to C3 as stated: with two different directories both
named `hello`, each holding a `zh-hans` variant, the default-language
post's translations list is `["zh-hans", "zh-hans"]`, which has a
duplicate entry — not the duplicate-free set the claim demands. -/
theorem C3_translations_cex :
    Option.map Page.translations
      (detailPagesEn (queryPosts
        [⟨"hello", "en", 3, ["blog", "2020", "hello", "index.md"], "Hello"⟩,
         ⟨"zh-hans/hello-a", "zh-hans", 2, ["blog", "2021", "hello", "index.md"], "A"⟩,
         ⟨"zh-hans/hello-b", "zh-hans", 1, ["blog", "2022", "hello", "index.md"], "B"⟩]))[0]? =
      some ["zh-hans", "zh-hans"] ∧
    ¬ (["zh-hans", "zh-hans"] : List String).Nodup := by
  exact ⟨by decide, by decide⟩

/-- C4 (amended): `createPages` performs no uniqueness check on route paths
(the computed `allSlugs` set is never consulted): on a successful query it
always completes without error, and the emitted route paths are exactly the
index-page paths followed by the slugs of the queried posts as-is — so two
default-language posts with identical slugs yield two routes with the same
path instead of aborting the build. -/
theorem C4_noDupCheck (snapshot : List PostNode) :
    (createPages snapshot none).2 = none ∧
    (createPages snapshot none).1.map Page.path =
      indexPages.map Page.path ++ (defaultLangPosts snapshot).map PostNode.slug ++
        (otherLangPosts snapshot).map PostNode.slug := by
  refine ⟨rfl, ?_⟩
  show (indexPages ++ detailPagesEn (queryPosts snapshot) ++
      detailPagesOther (queryPosts snapshot)).map Page.path = _
  rw [List.map_append, List.map_append]
  congr 1
  congr 1
  · rw [detailPagesEn, List.map_map, defaultLangPosts_eq]
    have : (Page.path ∘ fun ip => createPostPage (queryPosts snapshot)
        ((queryPosts snapshot).filter fun p => p.langKey == "en") ip.1 ip.2) =
        (PostNode.slug ∘ Prod.snd) := rfl
    rw [this, ← List.map_map, List.enum_map_snd]
  · rw [detailPagesOther, List.map_map]
    rfl

/-- Counterexample to C4 as stated: two default-language posts with the
identical slug `dup` produce a build that does not abort (no error) and
emits the path `dup` twice — route paths are not unique and no failure
occurs. -/
theorem C4_noDupCheck_cex :
    (createPages
        [⟨"dup", "en", 2, ["blog", "x", "index.md"], "First"⟩,
         ⟨"dup", "en", 1, ["blog", "y", "index.md"], "Second"⟩] none).2 = none ∧
    (createPages
        [⟨"dup", "en", 2, ["blog", "x", "index.md"], "First"⟩,
         ⟨"dup", "en", 1, ["blog", "y", "index.md"], "Second"⟩] none).1.map Page.path =
      ["/", "/zh-hans/", "dup", "dup"] ∧
    ¬ ((createPages
        [⟨"dup", "en", 2, ["blog", "x", "index.md"], "First"⟩,
         ⟨"dup", "en", 1, ["blog", "y", "index.md"], "Second"⟩] none).1.map Page.path).Nodup := by
  exact ⟨by decide, by decide, by decide⟩

/-- C5 (amended): on a failed content query `createPages` aborts after having
already created the locale index pages (and nothing else); on a successful
query it completes without error and emits the index pages followed by one
detail page per queried post. -/
theorem C5_abortAfterIndex (snapshot : List PostNode) (e : String) :
    createPages snapshot (some e) = (indexPages, some e) ∧
    (createPages snapshot none).2 = none ∧
    (createPages snapshot none).1 =
      indexPages ++ detailPagesEn (queryPosts snapshot) ++
        detailPagesOther (queryPosts snapshot) ∧
    (∀ p ∈ queryPosts snapshot, ∃ pg ∈ (createPages snapshot none).1, pg.path = p.slug) := by
  refine ⟨rfl, rfl, rfl, ?_⟩
  intro p hp
  by_cases hl : (p.langKey == "en") = true
  · have hdlp : p ∈ (queryPosts snapshot).filter fun q => q.langKey == "en" :=
      List.mem_filter.mpr ⟨hp, hl⟩
    have hmap : p ∈ ((queryPosts snapshot).filter fun q => q.langKey == "en").enum.map Prod.snd := by
      rw [List.enum_map_snd]
      exact hdlp
    obtain ⟨ip, hip, hsnd⟩ := List.mem_map.mp hmap
    refine ⟨createPostPage (queryPosts snapshot)
      ((queryPosts snapshot).filter fun q => q.langKey == "en") ip.1 ip.2, ?_, ?_⟩
    · show _ ∈ indexPages ++ detailPagesEn (queryPosts snapshot) ++
        detailPagesOther (queryPosts snapshot)
      rw [List.append_assoc]
      refine List.mem_append_right _ (List.mem_append_left _ ?_)
      exact List.mem_map_of_mem _ hip
    · rw [createPostPage_path, hsnd]
  · have holp : p ∈ (queryPosts snapshot).filter fun q => q.langKey != "en" := by
      refine List.mem_filter.mpr ⟨hp, ?_⟩
      simpa using hl
    refine ⟨Page.mk p.slug blogPost (PageContext.otherPostCtx p.langKey p.slug), ?_, rfl⟩
    show _ ∈ indexPages ++ detailPagesEn (queryPosts snapshot) ++
      detailPagesOther (queryPosts snapshot)
    rw [List.append_assoc]
    refine List.mem_append_right _ (List.mem_append_right _ ?_)
    exact List.mem_map_of_mem _ holp

/-- Witness for C5 at a failing query and at a one-post successful query. -/
theorem C5_abortAfterIndex_witness :
    createPages [] (some "query failed") = (indexPages, some "query failed") ∧
    (⟨"hello", "en", 3, ["blog", "hello", "index.md"], "Hello"⟩ : PostNode) ∈
      queryPosts [⟨"hello", "en", 3, ["blog", "hello", "index.md"], "Hello"⟩] ∧
    ∃ pg ∈ (createPages [⟨"hello", "en", 3, ["blog", "hello", "index.md"], "Hello"⟩] none).1,
      pg.path = "hello" := by
  refine ⟨(C5_abortAfterIndex [] "query failed").1, by decide, ?_⟩
  exact (C5_abortAfterIndex [⟨"hello", "en", 3, ["blog", "hello", "index.md"], "Hello"⟩]
    "unused").2.2.2 ⟨"hello", "en", 3, ["blog", "hello", "index.md"], "Hello"⟩ (by decide)

/-- Counterexample to C5 as stated: when the content query fails, the build
aborts only after the two locale index routes have already been created, so
it does not abort "having emitted no route at all". -/
theorem C5_abortAfterIndex_cex :
    (createPages [] (some "boom")).2 = some "boom" ∧
    (createPages [] (some "boom")).1 = indexPages ∧
    (createPages [] (some "boom")).1.length = 2 ∧
    (createPages [] (some "boom")).1 ≠ [] := by
  exact ⟨rfl, rfl, by decide, by decide⟩

/-- C6: the ordering is stable. For two default-language posts with equal
dates, if `p` occurs before `q` in the content snapshot (and the snapshot
is within the 1000-post query window), then `p` still occurs before `q` in
the filtered, date-descending default-language sequence that the detail
pages and navigation links are built from. -/
theorem C6_stableSort (snapshot : List PostNode) (p q : PostNode)
    (hp : p.langKey = "en") (hq : q.langKey = "en") (hd : p.date = q.date)
    (hsub : [p, q].Sublist snapshot) (hlen : snapshot.length ≤ 1000) :
    [p, q].Sublist (defaultLangPosts snapshot) := by
  have hab : postLe p q := le_of_eq hd.symm
  have h1 : [p, q].Sublist (List.insertionSort postLe snapshot) :=
    List.pair_sublist_insertionSort hab hsub
  have h2 : queryPosts snapshot = List.insertionSort postLe snapshot := by
    rw [queryPosts]
    exact List.take_of_length_le (by rw [List.length_insertionSort]; exact hlen)
  rw [defaultLangPosts_eq, h2]
  have h3 := List.Sublist.filter (fun x => x.langKey == "en") h1
  have h4 : List.filter (fun x => x.langKey == "en") [p, q] = [p, q] := by
    simp [List.filter, hp, hq]
  rwa [h4] at h3

/-- Witness for C6 at a two-post snapshot with equal dates. -/
theorem C6_stableSort_witness :
    ([⟨"a", "en", 5, ["blog", "a", "index.md"], "A"⟩,
      ⟨"b", "en", 5, ["blog", "b", "index.md"], "B"⟩] : List PostNode).Sublist
      [⟨"a", "en", 5, ["blog", "a", "index.md"], "A"⟩,
       ⟨"b", "en", 5, ["blog", "b", "index.md"], "B"⟩] ∧
    ([⟨"a", "en", 5, ["blog", "a", "index.md"], "A"⟩,
      ⟨"b", "en", 5, ["blog", "b", "index.md"], "B"⟩] : List PostNode).Sublist
      (defaultLangPosts
        [⟨"a", "en", 5, ["blog", "a", "index.md"], "A"⟩,
         ⟨"b", "en", 5, ["blog", "b", "index.md"], "B"⟩]) := by
  refine ⟨List.Sublist.refl _, ?_⟩
  exact C6_stableSort
    [⟨"a", "en", 5, ["blog", "a", "index.md"], "A"⟩,
     ⟨"b", "en", 5, ["blog", "b", "index.md"], "B"⟩]
    ⟨"a", "en", 5, ["blog", "a", "index.md"], "A"⟩
    ⟨"b", "en", 5, ["blog", "b", "index.md"], "B"⟩
    rfl rfl rfl (List.Sublist.refl _) (by decide)

/-- C7: the `lang` front-matter validation only ever accepts tags of the
configured locale set, substitutes the default `en` when the field is
absent, accepts every configured tag, and rejects any other tag with a
validation error (failing the build). -/
theorem C7_localeValidation (o : Option String) (t u : String) :
    (blogCollectionLang o = Except.ok u → u ∈ i18nLocales) ∧
    blogCollectionLang none = Except.ok defaultLocale ∧
    (t ∈ i18nLocales → blogCollectionLang (some t) = Except.ok t) ∧
    (t ∉ i18nLocales → blogCollectionLang (some t) = Except.error t) := by
  refine ⟨?_, rfl, ?_, ?_⟩
  · intro hok
    cases o with
    | none =>
      simp only [blogCollectionLang, Except.ok.injEq] at hok
      rw [← hok]
      simp [i18nLocales]
    | some s =>
      by_cases hs : s ∈ ["en", "zh-hans"]
      · rw [show blogCollectionLang (some s) = Except.ok s from by
          simp [blogCollectionLang, hs]] at hok
        rw [← (Except.ok.injEq _ _).mp hok]
        simpa [i18nLocales] using hs
      · rw [show blogCollectionLang (some s) = Except.error s from by
          simp [blogCollectionLang, hs]] at hok
        exact absurd hok (by simp)
  · intro ht
    have : t ∈ ["en", "zh-hans"] := by simpa [i18nLocales] using ht
    simp [blogCollectionLang, this]
  · intro ht
    have : t ∉ ["en", "zh-hans"] := by simpa [i18nLocales] using ht
    simp [blogCollectionLang, this]

/-- Witness for C7: the unknown tag `fr` is rejected, an absent tag defaults
to `en`, and the configured tag `zh-hans` is accepted. -/
theorem C7_localeValidation_witness :
    blogCollectionLang (some "fr") = Except.error "fr" ∧
    blogCollectionLang none = Except.ok defaultLocale ∧
    blogCollectionLang (some "zh-hans") = Except.ok "zh-hans" := by
  refine ⟨?_, (C7_localeValidation none "x" "y").2.1, ?_⟩
  · exact (C7_localeValidation (some "fr") "fr" "y").2.2.2 (by decide)
  · exact (C7_localeValidation (some "zh-hans") "zh-hans" "y").2.2.1 (by decide)

/-- C8: the feed is built from the posts filtered to non-draft default
language, sorted by date descending; it has one item per such post, every
such post contributes its item, every item comes from such a post, each
link is the site origin followed by the post's path, and the items are in
date-descending order. -/
theorem C8_feedContract (site : String) (blog : List BlogEntry) :
    (rssItems site blog).length = (blog.filter fun e => !e.draft && e.lang == "en").length ∧
    (∀ e ∈ blog, e.draft = false → e.lang = "en" →
      rssEntryItem site e ∈ rssItems site blog) ∧
    (∀ it ∈ rssItems site blog, ∃ e ∈ blog, e.draft = false ∧ e.lang = "en" ∧
      it = rssEntryItem site e ∧ it.link = site ++ "/" ++ e.slug ++ "/") ∧
    (rssItems site blog).Pairwise (fun a b => b.pubDate ≤ a.pubDate) := by
  refine ⟨?_, ?_, ?_, ?_⟩
  · simp [rssItems, List.length_insertionSort]
  · intro e he hd hl
    apply List.mem_map_of_mem
    rw [List.mem_insertionSort]
    exact List.mem_filter.mpr ⟨he, by simp [hd, hl]⟩
  · intro it hit
    simp only [rssItems] at hit
    obtain ⟨e, he, rfl⟩ := List.mem_map.mp hit
    rw [List.mem_insertionSort] at he
    obtain ⟨hmem, hcond⟩ := List.mem_filter.mp he
    simp only [Bool.and_eq_true, Bool.not_eq_true', beq_iff_eq] at hcond
    exact ⟨e, hmem, hcond.1, hcond.2, rfl, rfl⟩
  · exact List.Pairwise.map _ (fun a b h => h)
      (List.sorted_insertionSort entryLe (blog.filter fun e => !e.draft && e.lang == "en"))

/-- Witness for C8: a single non-draft English post contributes exactly its
item, whose link is the site origin plus the post path. -/
theorem C8_feedContract_witness :
    rssEntryItem "https://mirone.me" ⟨"post-a", "Title", "Desc", 7, false, "en"⟩ ∈
      rssItems "https://mirone.me" [⟨"post-a", "Title", "Desc", 7, false, "en"⟩] ∧
    (rssEntryItem "https://mirone.me" ⟨"post-a", "Title", "Desc", 7, false, "en"⟩).link =
      "https://mirone.me/post-a/" := by
  refine ⟨?_, by decide⟩
  exact (C8_feedContract "https://mirone.me"
    [⟨"post-a", "Title", "Desc", 7, false, "en"⟩]).2.1
    ⟨"post-a", "Title", "Desc", 7, false, "en"⟩ (by decide) rfl rfl

/-- C9: page generation and translation indexing consider at most the 1000
most recent posts. Re-running `createPages` on just the truncated,
date-sorted query window produces the identical output (so nothing outside
the window contributes to routes or to the translation index), and every
detail route's path is the slug of a post inside the window. -/
theorem C9_queryLimit (snapshot : List PostNode) (e : Option String) :
    createPages snapshot e = createPages (queryPosts snapshot) e ∧
    (∀ pg ∈ (createPages snapshot none).1, pg.isDetailPage = true →
      pg.path ∈ (queryPosts snapshot).map PostNode.slug) := by
  constructor
  · cases e with
    | some err => rfl
    | none => simp only [createPages, queryPosts_idem]
  · intro pg hmem hdet
    have hmem' : pg ∈ indexPages ++ detailPagesEn (queryPosts snapshot) ++
        detailPagesOther (queryPosts snapshot) := hmem
    rcases List.mem_append.mp hmem' with hl | hother
    · rcases List.mem_append.mp hl with hidx | hen
      · obtain ⟨lang, -, rfl⟩ := List.mem_map.mp hidx
        exact absurd hdet (by simp [Page.isDetailPage])
      · simp only [detailPagesEn] at hen
        obtain ⟨ip, hip, rfl⟩ := List.mem_map.mp hen
        rw [createPostPage_path]
        have h2 : ip.2 ∈ (queryPosts snapshot).filter fun p => p.langKey == "en" := by
          have := List.mem_map_of_mem Prod.snd hip
          rwa [List.enum_map_snd] at this
        exact List.mem_map_of_mem _ (List.mem_filter.mp h2).1
    · simp only [detailPagesOther] at hother
      obtain ⟨p, hp, rfl⟩ := List.mem_map.mp hother
      exact List.mem_map_of_mem _ (List.mem_filter.mp hp).1

/-- Witness for C9: at a one-post snapshot the detail page's path is the slug
of a post inside the query window. -/
theorem C9_queryLimit_witness :
    Page.mk "hello" blogPost (PageContext.postCtx "hello" "en" [] none none) ∈
      (createPages [⟨"hello", "en", 3, ["blog", "hello", "index.md"], "Hello"⟩] none).1 ∧
    Page.isDetailPage
      (Page.mk "hello" blogPost (PageContext.postCtx "hello" "en" [] none none)) = true ∧
    Page.path (Page.mk "hello" blogPost (PageContext.postCtx "hello" "en" [] none none)) ∈
      (queryPosts [⟨"hello", "en", 3, ["blog", "hello", "index.md"], "Hello"⟩]).map
        PostNode.slug := by
  refine ⟨by decide, by decide, ?_⟩
  exact (C9_queryLimit [⟨"hello", "en", 3, ["blog", "hello", "index.md"], "Hello"⟩] none).2
    (Page.mk "hello" blogPost (PageContext.postCtx "hello" "en" [] none none))
    (by decide) (by decide)

/-- C10: the translation-group key is the basename of the containing
directory, not the full directory path. A non-default-language post `q`
lying in a different directory than the default-language post `p`, but with
the same directory basename, lands its `langKey` in `p`'s page's
translations list; and `p`'s group key is literally the basename of the
directory part of its file path, which `q`'s equals. -/
theorem C10_basenameKey (snapshot : List PostNode) (i : Nat) (pg : Page) (p q : PostNode)
    (hpg : (detailPagesEn (queryPosts snapshot))[i]? = some pg)
    (hP : (defaultLangPosts snapshot)[i]? = some p)
    (hq : q ∈ queryPosts snapshot)
    (hql : q.langKey ≠ "") (hqe : q.langKey ≠ "en")
    (hdir : dirname q.fileAbsolutePath ≠ dirname p.fileAbsolutePath)
    (hbase : basename (dirname q.fileAbsolutePath) = basename (dirname p.fileAbsolutePath))
    (hnz : basename (dirname q.fileAbsolutePath) ≠ "") :
    q.langKey ∈ pg.translations ∧
    p.directoryName = basename (dirname p.fileAbsolutePath) ∧
    q.directoryName = p.directoryName := by
  rw [detailPagesEn_getElem?] at hpg
  rw [defaultLangPosts_eq] at hP
  rw [hP] at hpg
  simp only [Option.map_some', Option.some.injEq] at hpg
  subst hpg
  have hqp : q.directoryName = p.directoryName := by
    rw [PostNode.directoryName, PostNode.directoryName, hbase]
  refine ⟨?_, rfl, hqp⟩
  rw [createPostPage_translations, translationsByDirectory_getD]
  have hfilter : q ∈ (queryPosts snapshot).filter (contributesTo p.directoryName) := by
    refine List.mem_filter.mpr ⟨hq, ?_⟩
    have hz : q.directoryName ≠ "" := by rw [PostNode.directoryName]; exact hnz
    have hzp : p.directoryName ≠ "" := hqp ▸ hz
    simp [contributesTo, hz, hzp, hql, hqe, hqp]
  exact List.mem_map_of_mem _ hfilter

/-- Witness for C10: posts in the distinct directories `blog/hello` and
`posts/hello` (same basename `hello`) are grouped together. -/
theorem C10_basenameKey_witness :
    (detailPagesEn (queryPosts
        [⟨"hello", "en", 3, ["blog", "hello", "index.md"], "Hello"⟩,
         ⟨"zh-hans/hello", "zh-hans", 2, ["posts", "hello", "index.md"], "你好"⟩]))[0]? =
      some (Page.mk "hello" blogPost (PageContext.postCtx "hello" "en" ["zh-hans"] none none)) ∧
    dirname ["posts", "hello", "index.md"] ≠ dirname ["blog", "hello", "index.md"] ∧
    basename (dirname ["posts", "hello", "index.md"]) =
      basename (dirname ["blog", "hello", "index.md"]) ∧
    "zh-hans" ∈ Page.translations
      (Page.mk "hello" blogPost (PageContext.postCtx "hello" "en" ["zh-hans"] none none)) := by
  refine ⟨by decide, by decide, by decide, ?_⟩
  exact (C10_basenameKey
    [⟨"hello", "en", 3, ["blog", "hello", "index.md"], "Hello"⟩,
     ⟨"zh-hans/hello", "zh-hans", 2, ["posts", "hello", "index.md"], "你好"⟩] 0
    (Page.mk "hello" blogPost (PageContext.postCtx "hello" "en" ["zh-hans"] none none))
    ⟨"hello", "en", 3, ["blog", "hello", "index.md"], "Hello"⟩
    ⟨"zh-hans/hello", "zh-hans", 2, ["posts", "hello", "index.md"], "你好"⟩
    (by decide) (by decide) (by decide) (by decide) (by decide) (by decide) (by decide)
    (by decide)).1
